import Mathlib

/-!
Verification of the udp-balancer dispatch engine and relay loop
(src/udp-balancer.c), as a shallow embedding in Lean.

Bytes are modelled as natural numbers; every place where the C code
truncates to a machine width carries an explicit modulus (`% 256` for
`uint8_t`, `% 2^64` for the `uint64_t` sequence counter).
-/

namespace UdpBalancer

set_option maxRecDepth 8192

/-- Width modulus of the `uint64_t` sequence counter `seqnr`. -/
def UINT64_MOD : Nat := 2 ^ 64

/-!
## crc8 (src/udp-balancer.c lines 165-182)

```c
static uint8_t crc8(const char *msg, ssize_t len)
{
    uint8_t crc = 0;
    uint8_t bit;
    while (len--) {
        crc ^= (uint8_t)*msg++;
        for (bit = 8; bit > 0; bit--) {
            crc = (crc << 1);
            if (crc & 0x80)
                crc ^= 0x81;
        }
    }
    return crc;
}
```
Note the inner loop shifts first (truncating to 8 bits on the
assignment back to the `uint8_t` variable) and only afterwards tests
bit 7 of the already-shifted value.
-/

/-- One iteration of the inner bit loop of `crc8`: shift left, truncate
to 8 bits, then test bit 7 of the shifted value and conditionally xor
the constant 0x81. -/
def crc8BitStep (crc : Nat) : Nat :=
  let c := (crc <<< 1) % 256
  if c &&& 0x80 ≠ 0 then c ^^^ 0x81 else c

/-- The inner `for (bit = 8; ...)` loop, iterated `n` times. -/
def crc8Bits (crc : Nat) : Nat → Nat
  | 0 => crc
  | n + 1 => crc8Bits (crc8BitStep crc) n

/-- `crc8` over a byte list: xor each byte (cast to `uint8_t`, hence
`% 256`) into the accumulator, then run the 8-step bit loop. -/
def crc8 (msg : List Nat) : Nat :=
  msg.foldl (fun crc b => crc8Bits (crc ^^^ (b % 256)) 8) 0

/-!
## Reference CRC-8

The spec demands: "CRC-8, polynomial 0x81, initial value 0x00, no
input/output reflection, processed most-significant-bit first".  The
standard MSB-first bit update tests the top bit of the register
BEFORE shifting, and xors in the polynomial when that bit was set.
-/

/-- One bit of the reference CRC-8 (poly 0x81, MSB first): test bit 7
of the current register, shift left (mod 256), xor 0x81 if the tested
bit was set.  Second definition, from the spec words, for comparison
with the source definition `crc8BitStep`. -/
def crc8RefBitStep (crc : Nat) : Nat :=
  let c := (crc <<< 1) % 256
  if crc &&& 0x80 ≠ 0 then c ^^^ 0x81 else c

/-- Eight reference bit steps. -/
def crc8RefBits (crc : Nat) : Nat → Nat
  | 0 => crc
  | n + 1 => crc8RefBits (crc8RefBitStep crc) n

/-- Reference CRC-8 over a byte list (init 0x00, no reflection). -/
def crc8Ref (msg : List Nat) : Nat :=
  msg.foldl (fun crc b => crc8RefBits (crc ^^^ (b % 256)) 8) 0

/-!
## Configuration and dispatch (src/udp-balancer.c lines 25-34, 196-207)

`conf` holds `handle_gelf : bool`, the `uint8_t` upstream count
`nremotes` and the array `remotes[256]`.  Remote endpoints are
abstracted to natural-number identifiers; only their identity and
order matter to the claims.
-/

/-- The relevant fields of the static `conf` structure. -/
structure Config where
  handle_gelf : Bool
  nremotes : Nat
  remotes : List Nat

/-- `!memcmp(payload, "\036\017", 2)`: the first two payload bytes
equal the GELF chunk magic 0x1E 0x0F.  `memcmp` reads exactly two
bytes; a payload shorter than two bytes never occurs in the relay loop
(12-byte minimum) and is mapped to `false`. -/
def hasGelfMagic : List Nat → Bool
  | b0 :: b1 :: _ => b0 == 0x1E && b1 == 0x0F
  | _ => false

/-- `toaddr`: returns the selected upstream index together with the
sequence counter after the call.  The GELF branch hashes payload bytes
2..9 (`crc8(payload + 2, 8)`) and leaves `seqnr` untouched; the
round-robin branch uses `seqnr++ % conf.nremotes`, with the `uint64_t`
post-increment wrapping at `2^64`. -/
def toaddr (cfg : Config) (seqnr : Nat) (payload : List Nat) : Nat × Nat :=
  if cfg.handle_gelf && hasGelfMagic payload then
    (crc8 ((payload.drop 2).take 8) % cfg.nremotes, seqnr)
  else
    (seqnr % cfg.nremotes, (seqnr + 1) % UINT64_MOD)

/-!
## Upstream parsing (src/udp-balancer.c lines 116-124, 251-254)

Each `upstream` directive executes
`parse_addr(ptr, &conf.remotes[conf.nremotes++])`: a store at index
`nremotes` followed by a `uint8_t` increment (wrapping at 256).  After
parsing, `main` rejects the configuration when `!conf.nremotes`.
-/

/-- Fold the successively parsed upstream endpoints into the
(`remotes` array, `nremotes`) pair, exactly as the `upstream` branch of
`parse_config` does: store at the current counter value, then
increment the `uint8_t` counter modulo 256. -/
def parseUpstreams : List Nat → List Nat × Nat → List Nat × Nat
  | [], st => st
  | a :: rest, st => parseUpstreams rest (st.1.set st.2 a, (st.2 + 1) % 256)

/-- The `remotes` array before any directive is parsed: 256 zeroed
slots (static storage). -/
def initRemotes : List Nat := List.replicate 256 0

/-- The startup check at line 251: `if (!conf.nremotes)` exits, so the
configuration is accepted only when the parsed count is nonzero. -/
def acceptsUpstreams (nremotes : Nat) : Bool := nremotes != 0

/-- Sequential array stores `arr[n] = a; arr[n+1] = a'; ...` without
counter wrapping, used to characterise `parseUpstreams` below. -/
def writeSeq : List Nat → List Nat → Nat → List Nat
  | arr, [], _ => arr
  | arr, a :: rest, n => writeSeq (arr.set n a) rest (n + 1)

/-!
## Relay loop (src/udp-balancer.c lines 284-312)

One loop iteration either fails to receive (`recvlen < 0`: log, break,
`close(sock); return 0;`), receives a short datagram (`recvlen < 12`:
log, continue), or dispatches: `sa = toaddr(pkt)` followed by
`sendto(sock, pkt, recvlen, 0, sa, ...)`; when the sendto result
differs from `recvlen` the condition is logged and the loop continues.
The environment is modelled as a finite trace of receive events, each
carrying the received payload and the result value `sendto` would
report for it.
-/

/-- One receive event seen by the loop: either `recvfrom` fails, or it
yields a payload whose subsequent `sendto` (if any) returns `r`. -/
inductive RecvEvent where
  | err : RecvEvent
  | pkt : List Nat → Int → RecvEvent

/-- Diagnostics written to stderr by the loop. -/
inductive LogMsg where
  | recvError : LogMsg
  | badPacket : LogMsg
  | sendError : Nat → LogMsg
deriving DecidableEq

/-- Observable loop state: the sequence counter, the datagrams handed
to `sendto` (selected upstream index paired with the exact bytes
passed), and the log. -/
structure LoopState where
  seqnr : Nat
  sends : List (Nat × List Nat)
  logs : List LogMsg
deriving DecidableEq

/-- Outcome of running the loop over a finite event trace: either the
trace is exhausted with the loop still alive, or the loop broke and
`main` returned the given exit code. -/
inductive LoopOutcome where
  | running : LoopState → LoopOutcome
  | exited : Int → LoopState → LoopOutcome
deriving DecidableEq

/-- Process one successfully received datagram, lines 295-307: short
datagrams are logged and dropped before dispatch; otherwise `toaddr`
selects the upstream, the received bytes are passed unchanged to
`sendto`, and a send result different from the received length is
logged, the loop continuing either way. -/
def procPkt (cfg : Config) (s : LoopState) (p : List Nat) (r : Int) : LoopState :=
  if p.length < 12 then
    LoopState.mk s.seqnr s.sends (s.logs ++ [LogMsg.badPacket])
  else
    let d := toaddr cfg s.seqnr p
    let logs := if r ≠ (p.length : Int) then s.logs ++ [LogMsg.sendError d.1] else s.logs
    LoopState.mk d.2 (s.sends ++ [(d.1, p)]) logs

/-- The `while (1)` loop over a finite event trace.  A receive failure
logs, breaks out of the loop, and `main` falls through to
`close(sock); return 0;`. -/
def relayRun (cfg : Config) (s : LoopState) : List RecvEvent → LoopOutcome
  | [] => LoopOutcome.running s
  | RecvEvent.err :: _ =>
      LoopOutcome.exited 0 (LoopState.mk s.seqnr s.sends (s.logs ++ [LogMsg.recvError]))
  | RecvEvent.pkt p r :: rest => relayRun cfg (procPkt cfg s p r) rest

/-- The exit code of `main` visible in a loop outcome, when the loop
terminated. -/
def exitCode : LoopOutcome → Option Int
  | LoopOutcome.running _ => none
  | LoopOutcome.exited c _ => some c

/-- Upstream indices chosen for a sequence of dispatched payloads,
starting from the given counter value (each payload selected via
`toaddr`, threading the counter). -/
def runIndices (cfg : Config) : Nat → List (List Nat) → List Nat
  | _, [] => []
  | s, p :: ps =>
      let d := toaddr cfg s p
      d.1 :: runIndices cfg d.2 ps

/-!
## Concrete fixtures used by witnesses and counterexamples
-/

/-- A configuration with GELF affinity handling enabled and three
upstreams. -/
def cfgG : Config := Config.mk true 3 [100, 200, 300]

/-- A configuration with GELF affinity handling disabled and two
upstreams. -/
def cfgF : Config := Config.mk false 2 [100, 200]

/-- A 12-byte payload starting with the GELF chunk magic. -/
def pg : List Nat := [0x1E, 0x0F, 1, 2, 3, 4, 5, 6, 7, 8, 9, 10]

/-- A 12-byte payload starting with the GELF chunk magic, all
identifier bytes zero. -/
def pm : List Nat := 0x1E :: 0x0F :: List.replicate 10 0

/-- Six 12-byte payloads with differing contents and no GELF magic. -/
def ps6 : List (List Nat) :=
  [List.replicate 12 1, List.replicate 12 2, List.replicate 12 3,
   List.replicate 12 4, List.replicate 12 5, List.replicate 12 6]

/-- The loop state at process start. -/
def st0 : LoopState := LoopState.mk 0 [] []

/-!
## Helper lemmas
-/

/-- A payload whose first two bytes (as a prefix) are `[0x1E, 0x0F]`
satisfies the GELF magic comparison. -/
theorem hasGelfMagic_of_take (p : List Nat) (h : p.take 2 = [0x1E, 0x0F]) :
    hasGelfMagic p = true := by
  match p with
  | [] => simp at h
  | [b0] => simp at h
  | b0 :: b1 :: t =>
      simp only [List.take_succ_cons, List.take_zero, List.cons.injEq, and_true] at h
      simp [hasGelfMagic, h.1, h.2]

/-- Writing one element at an in-range index and taking one past it
yields the untouched prefix followed by the written element. -/
theorem take_succ_set (arr : List Nat) (n : Nat) (a : Nat) (h : n < arr.length) :
    (arr.set n a).take (n + 1) = arr.take n ++ [a] := by
  rw [List.set_eq_take_cons_drop a h]
  rw [List.take_append_eq_append_take]
  have hlen2 : (arr.take n).length = n := List.length_take_of_le (Nat.le_of_lt h)
  simp [hlen2]

/-- `writeSeq` preserves the array length. -/
theorem writeSeq_length (addrs : List Nat) :
    ∀ (arr : List Nat) (n : Nat), (writeSeq arr addrs n).length = arr.length := by
  induction addrs with
  | nil => intro arr n; rfl
  | cons a rest ih =>
      intro arr n
      simp only [writeSeq, ih, List.length_set]

/-- Taking the written region of a `writeSeq` result recovers the
original prefix followed by the written elements. -/
theorem writeSeq_take (addrs : List Nat) :
    ∀ (arr : List Nat) (n : Nat), n + addrs.length ≤ arr.length →
      (writeSeq arr addrs n).take (n + addrs.length) = arr.take n ++ addrs := by
  induction addrs with
  | nil => intro arr n h; simp [writeSeq]
  | cons a rest ih =>
      intro arr n h
      simp only [List.length_cons] at h
      have hn : n < arr.length := by omega
      have hstep := ih (arr.set n a) (n + 1)
        (by simp only [List.length_set]; omega)
      simp only [writeSeq, List.length_cons]
      have harith : n + (rest.length + 1) = (n + 1) + rest.length := by omega
      rw [harith, hstep, take_succ_set arr n a hn]
      simp

/-- Under the 256-slot bound, `parseUpstreams` is sequential writing
plus the wrapped `uint8_t` count. -/
theorem parseUpstreams_eq (addrs : List Nat) :
    ∀ (arr : List Nat) (n : Nat), arr.length = 256 → n < 256 →
      n + addrs.length ≤ 256 →
      parseUpstreams addrs (arr, n) =
        (writeSeq arr addrs n, (n + addrs.length) % 256) := by
  induction addrs with
  | nil =>
      intro arr n _ hn _
      simp [parseUpstreams, writeSeq, Nat.mod_eq_of_lt hn]
  | cons a rest ih =>
      intro arr n hlen hn hb
      simp only [List.length_cons] at hb
      simp only [parseUpstreams, writeSeq, List.length_cons]
      by_cases hw : n + 1 < 256
      · have hmod : (n + 1) % 256 = n + 1 := Nat.mod_eq_of_lt hw
        rw [hmod, ih (arr.set n a) (n + 1) (by simp [hlen]) hw (by omega)]
        have harith : (n + 1) + rest.length = n + (rest.length + 1) := by omega
        rw [harith]
      · have h256 : n + 1 = 256 := by omega
        have hrest : rest.length = 0 := by omega
        have hrnil : rest = [] := List.eq_nil_of_length_eq_zero hrest
        subst hrnil
        simp [parseUpstreams, writeSeq, h256]

/-- Round-robin dispatch sequences: starting at counter `s`, a run of
payloads none of which takes the affinity branch selects indices
`(s + i) % nremotes` in call order, as long as the counter does not
wrap. -/
theorem runIndices_rr (cfg : Config) (ps : List (List Nat)) :
    ∀ s : Nat, (∀ p ∈ ps, (cfg.handle_gelf && hasGelfMagic p) = false) →
      s + ps.length ≤ UINT64_MOD →
      runIndices cfg s ps =
        (List.range ps.length).map (fun i => (s + i) % cfg.nremotes) := by
  induction ps with
  | nil => intro s _ _; simp [runIndices]
  | cons p ps ih =>
      intro s hall hb
      simp only [List.length_cons] at hb
      have hp : (cfg.handle_gelf && hasGelfMagic p) = false :=
        hall p (List.mem_cons_self p ps)
      have hrest : ∀ q ∈ ps, (cfg.handle_gelf && hasGelfMagic q) = false :=
        fun q hq => hall q (List.mem_cons_of_mem p hq)
      simp only [runIndices, toaddr, hp, Bool.false_eq_true, if_false, List.length_cons]
      by_cases hw : s + 1 < UINT64_MOD
      · have hmod : (s + 1) % UINT64_MOD = s + 1 := Nat.mod_eq_of_lt hw
        rw [hmod, ih (s + 1) hrest (by omega)]
        rw [List.range_succ_eq_map]
        simp only [List.map_cons, Nat.add_zero, List.map_map]
        refine congrArg _ ?_
        refine List.map_congr_left ?_
        intro i _
        simp only [Function.comp_apply]
        refine congrArg (fun t => t % cfg.nremotes) ?_
        omega
      · have hrest0 : ps.length = 0 := by
          have : 0 < UINT64_MOD := by decide
          omega
        have hnil : ps = [] := List.eq_nil_of_length_eq_zero hrest0
        subst hnil
        simp [runIndices, List.range_succ]

/-!
## Claim theorems
-/

/-- C1.  The program's `crc8` does NOT equal the standard CRC-8
reference (poly 0x81, init 0x00, no reflection, MSB first): on the
8-byte input `0x80 00 00 00 00 00 00 00` the program returns 0x00
while the reference returns 0x81.  The last conjunct exhibits the root
cause: because the source shifts the register before testing the top
bit, the most significant bit of an input byte never influences the
result, which is impossible for a genuine CRC-8. -/
theorem crc8_differs_from_reference :
    crc8 [0x80, 0, 0, 0, 0, 0, 0, 0] = 0x00 ∧
    crc8Ref [0x80, 0, 0, 0, 0, 0, 0, 0] = 0x81 ∧
    crc8 [0x80, 0, 0, 0, 0, 0, 0, 0] ≠ crc8Ref [0x80, 0, 0, 0, 0, 0, 0, 0] ∧
    crc8 [0x80, 0, 0, 0, 0, 0, 0, 0] = crc8 (List.replicate 8 0) := by
  decide

/-- C2 counterexample.  On a receive failure the loop terminates and
`main` reaches `close(sock); return 0;`: the observed exit status is
0, not the non-zero failure status the claim requires. -/
theorem recv_error_exit_code_cex :
    exitCode (relayRun cfgG st0 [RecvEvent.err]) = some 0 := by
  decide

/-- C2 (amended).  A receive failure is logged, terminates the relay
loop (any later events are ignored), and the process exits — but with
status 0, not a failure status. -/
theorem recv_error_exits_zero (cfg : Config) (s : LoopState)
    (rest : List RecvEvent) :
    relayRun cfg s (RecvEvent.err :: rest) =
      LoopOutcome.exited 0
        (LoopState.mk s.seqnr s.sends (s.logs ++ [LogMsg.recvError])) := by
  rfl

/-- C4 counterexample.  With affinity mode disabled, a payload that
begins with the marker bytes still takes the round-robin branch, so
the very same payload (same identifier bytes, `N = 2 ≥ 1`) is routed
to different upstreams under counter values 0 and 1: the claim as
stated (which does not require affinity mode to be enabled) is
false. -/
theorem affinity_independence_cex :
    pm.take 2 = [0x1E, 0x0F] ∧ 12 ≤ pm.length ∧ 1 ≤ cfgF.nremotes ∧
    (pm.drop 2).take 8 = (pm.drop 2).take 8 ∧
    (toaddr cfgF 0 pm).1 ≠ (toaddr cfgF 1 pm).1 := by
  decide

/-- C4 (amended).  When affinity mode is enabled, any two payloads of
length ≥ 12 that begin with the marker `0x1E 0x0F` and agree on bytes
2..9 are dispatched to the same upstream index, for any counter values
and any `N ≥ 1`; in particular bytes at offset 10 and beyond never
influence the selection. -/
theorem affinity_selection_consistent (cfg : Config) (s1 s2 : Nat)
    (p1 p2 : List Nat)
    (hg : cfg.handle_gelf = true) (hN : 1 ≤ cfg.nremotes)
    (hl1 : 12 ≤ p1.length) (hl2 : 12 ≤ p2.length)
    (hm1 : p1.take 2 = [0x1E, 0x0F]) (hm2 : p2.take 2 = [0x1E, 0x0F])
    (hid : (p1.drop 2).take 8 = (p2.drop 2).take 8) :
    (toaddr cfg s1 p1).1 = (toaddr cfg s2 p2).1 := by
  have m1 := hasGelfMagic_of_take p1 hm1
  have m2 := hasGelfMagic_of_take p2 hm2
  simp [toaddr, hg, m1, m2, hid]

/-- C4 witness: the amended theorem applied to two concrete marker
payloads that differ only from byte 10 on. -/
theorem affinity_selection_consistent_witness :
    (toaddr cfgG 3 (pg ++ [77, 88])).1 = (toaddr cfgG 9 (pg ++ [5])).1 :=
  affinity_selection_consistent cfgG 3 9 (pg ++ [77, 88]) (pg ++ [5])
    (by decide) (by decide) (by decide) (by decide) (by decide) (by decide)
    (by decide)

/-- C5.  With affinity mode on and the marker present, `toaddr`
selects index `crc8(bytes 2..9) % N` and leaves the counter untouched;
in every other case the counter is the one advanced (by exactly one,
wrapping at `2^64`). -/
theorem gelf_dispatch_no_counter_advance (cfg : Config) (s : Nat)
    (p : List Nat) :
    (cfg.handle_gelf = true → hasGelfMagic p = true →
      toaddr cfg s p = (crc8 ((p.drop 2).take 8) % cfg.nremotes, s)) ∧
    ((cfg.handle_gelf && hasGelfMagic p) = false →
      (toaddr cfg s p).2 = (s + 1) % UINT64_MOD) := by
  constructor
  · intro hg hm
    simp [toaddr, hg, hm]
  · intro hrr
    simp [toaddr, hrr]

/-- C5 witness: both branches of the theorem at concrete inputs — a
marker payload under `cfgG` keeps the counter at 7; a markerless
payload advances it to 8. -/
theorem gelf_dispatch_no_counter_advance_witness :
    toaddr cfgG 7 pg = (crc8 ((pg.drop 2).take 8) % cfgG.nremotes, 7) ∧
    (toaddr cfgG 7 (List.replicate 12 0)).2 = (7 + 1) % UINT64_MOD :=
  ⟨(gelf_dispatch_no_counter_advance cfgG 7 pg).1 (by decide) (by decide),
   (gelf_dispatch_no_counter_advance cfgG 7 (List.replicate 12 0)).2
     (by decide)⟩

/-- C3 counterexample.  With exactly 256 `upstream` directives the
`uint8_t` counter `nremotes` wraps to 0, and the startup check
`if (!conf.nremotes)` rejects the configuration: length 256 is not
accepted. -/
theorem upstream_256_rejected :
    acceptsUpstreams (parseUpstreams (List.range 256) (initRemotes, 0)).2
      = false := by
  have h := parseUpstreams_eq (List.range 256) initRemotes 0
    (by simp [initRemotes]) (by decide) (by simp)
  rw [h]
  simp [acceptsUpstreams]

/-- C3 (amended).  For every upstream list of length `1 ≤ L ≤ 255` the
parsed count equals `L`, the startup check accepts the configuration,
and the first `L` slots of the remotes array hold exactly the
configured endpoints in configuration order. -/
theorem upstreams_accepted_when_le_255 (addrs : List Nat)
    (h1 : 1 ≤ addrs.length) (h2 : addrs.length ≤ 255) :
    (parseUpstreams addrs (initRemotes, 0)).2 = addrs.length ∧
    acceptsUpstreams (parseUpstreams addrs (initRemotes, 0)).2 = true ∧
    (parseUpstreams addrs (initRemotes, 0)).1.take addrs.length = addrs := by
  have hm : addrs.length < 256 := by omega
  have h := parseUpstreams_eq addrs initRemotes 0
    (by simp [initRemotes]) (by decide) (by omega)
  rw [h]
  refine ⟨by simp [Nat.mod_eq_of_lt hm], ?_, ?_⟩
  · simp only [Nat.zero_add, Nat.mod_eq_of_lt hm, acceptsUpstreams]
    simp only [bne_iff_ne, ne_eq, decide_eq_true_eq]
    omega
  · have ht := writeSeq_take addrs initRemotes 0 (by simp [initRemotes]; omega)
    simpa using ht

/-- C3 witness: the amended theorem at the three-element upstream list
`[7, 8, 9]`. -/
theorem upstreams_accepted_when_le_255_witness :
    (parseUpstreams [7, 8, 9] (initRemotes, 0)).2 = 3 ∧
    acceptsUpstreams (parseUpstreams [7, 8, 9] (initRemotes, 0)).2 = true ∧
    (parseUpstreams [7, 8, 9] (initRemotes, 0)).1.take 3 = [7, 8, 9] :=
  upstreams_accepted_when_le_255 [7, 8, 9] (by decide) (by decide)

/-- C6.  A payload that does not take the affinity branch is routed to
index `counter % N` and advances the counter by one (wrapping at
`2^64`); a whole run of such payloads starting from counter 0 yields
the strict rotation `0, 1, ..., N-1, 0, 1, ...` regardless of payload
content. -/
theorem round_robin_rotation (cfg : Config) (s : Nat) (p : List Nat)
    (ps : List (List Nat))
    (hp : (cfg.handle_gelf && hasGelfMagic p) = false)
    (hps : ∀ q ∈ ps, (cfg.handle_gelf && hasGelfMagic q) = false)
    (hlen : ps.length ≤ UINT64_MOD) :
    toaddr cfg s p = (s % cfg.nremotes, (s + 1) % UINT64_MOD) ∧
    runIndices cfg 0 ps =
      (List.range ps.length).map (fun i => i % cfg.nremotes) := by
  constructor
  · simp [toaddr, hp]
  · have h := runIndices_rr cfg ps 0 hps (by omega)
    rw [h]
    refine List.map_congr_left ?_
    intro i _
    simp

/-- C6 witness: six markerless datagrams of differing contents under a
three-upstream configuration rotate `[0, 1, 2, 0, 1, 2]`, and a single
dispatch at counter 5 selects `5 % 3` and advances the counter. -/
theorem round_robin_rotation_witness :
    toaddr cfgG 5 (List.replicate 12 9)
      = (5 % cfgG.nremotes, (5 + 1) % UINT64_MOD) ∧
    runIndices cfgG 0 ps6 = [0, 1, 2, 0, 1, 2] := by
  have h := round_robin_rotation cfgG 5 (List.replicate 12 9) ps6
    (by decide) (by decide) (by decide)
  exact ⟨h.1, h.2.trans (by decide)⟩

/-- C7.  A received datagram shorter than 12 bytes is logged as a bad
packet and discarded: the loop goes on to the remaining events with
the counter and the send log untouched — it is never dispatched and
nothing is sent for it. -/
theorem short_datagram_discarded (cfg : Config) (s : LoopState)
    (p : List Nat) (r : Int) (rest : List RecvEvent) (h : p.length < 12) :
    relayRun cfg s (RecvEvent.pkt p r :: rest) =
      relayRun cfg
        (LoopState.mk s.seqnr s.sends (s.logs ++ [LogMsg.badPacket]))
        rest := by
  simp [relayRun, procPkt, h]

/-- C7 witness: a 3-byte datagram is logged and dropped, and the loop
survives it. -/
theorem short_datagram_discarded_witness :
    relayRun cfgG st0 [RecvEvent.pkt [1, 2, 3] 3] =
      LoopOutcome.running (LoopState.mk 0 [] [LogMsg.badPacket]) := by
  have h := short_datagram_discarded cfgG st0 [1, 2, 3] 3 [] (by decide)
  exact h.trans (by decide)

/-- C8.  When `sendto` reports a byte count different from the
received length, the mismatch is logged with the destination index and
the loop continues with the remaining events — the next datagram is
still processed. -/
theorem send_mismatch_soft (cfg : Config) (s : LoopState) (p : List Nat)
    (r : Int) (rest : List RecvEvent) (h1 : 12 ≤ p.length)
    (h2 : r ≠ (p.length : Int)) :
    relayRun cfg s (RecvEvent.pkt p r :: rest) =
      relayRun cfg
        (LoopState.mk (toaddr cfg s.seqnr p).2
          (s.sends ++ [((toaddr cfg s.seqnr p).1, p)])
          (s.logs ++ [LogMsg.sendError (toaddr cfg s.seqnr p).1]))
        rest := by
  have hlt : ¬ p.length < 12 := by omega
  simp [relayRun, procPkt, hlt, h2]

/-- C8 witness: a 12-byte datagram whose send reports 5 bytes is
logged, and the following datagram is still dispatched and sent. -/
theorem send_mismatch_soft_witness :
    relayRun cfgG st0
        [RecvEvent.pkt (List.replicate 12 0) 5,
         RecvEvent.pkt (List.replicate 12 1) 12] =
      LoopOutcome.running
        (LoopState.mk 2
          [(0, List.replicate 12 0), (1, List.replicate 12 1)]
          [LogMsg.sendError 0]) := by
  have h := send_mismatch_soft cfgG st0 (List.replicate 12 0) 5
    [RecvEvent.pkt (List.replicate 12 1) 12] (by decide) (by decide)
  exact h.trans (by decide)

/-- C9.  Every dispatched datagram (length ≥ 12) is handed to `sendto`
byte-for-byte as received: the send record holds exactly the received
byte list `p`, so content and length are preserved, whatever result
the send then reports. -/
theorem relay_payload_verbatim (cfg : Config) (s : LoopState)
    (p : List Nat) (r : Int) (h : 12 ≤ p.length) :
    (procPkt cfg s p r).sends =
      s.sends ++ [((toaddr cfg s.seqnr p).1, p)] := by
  have hlt : ¬ p.length < 12 := by omega
  by_cases hr : r ≠ (p.length : Int) <;> simp [procPkt, hlt, hr]

/-- C9 witness: the theorem at a concrete GELF datagram. -/
theorem relay_payload_verbatim_witness :
    (procPkt cfgG st0 pg 12).sends =
      st0.sends ++ [((toaddr cfgG st0.seqnr pg).1, pg)] :=
  relay_payload_verbatim cfgG st0 pg 12 (by decide)

/-- C10.  With at least one configured upstream — which the startup
check guarantees — both dispatch branches compute an index strictly
below `nremotes`, so the modulo is never taken by zero and the
selected endpoint is one of the configured ones. -/
theorem dispatch_index_in_range (cfg : Config) (s : Nat) (p : List Nat)
    (h : 1 ≤ cfg.nremotes) :
    (toaddr cfg s p).1 < cfg.nremotes := by
  unfold toaddr
  split
  · exact Nat.mod_lt _ (by omega)
  · exact Nat.mod_lt _ (by omega)

/-- C10 witness: the theorem at a concrete payload and configuration. -/
theorem dispatch_index_in_range_witness :
    (toaddr cfgG 5 (List.replicate 12 0)).1 < cfgG.nremotes :=
  dispatch_index_in_range cfgG 5 (List.replicate 12 0) (by decide)

end UdpBalancer
